import Mathlib

/-!
Shallow embedding of the HMM fitting worker and the figure-generation
consumer code of this repository (`HMM_analysis_python/hmm_worker.py` and
`GenericFigure.py`), together with theorems checking the behavioural
properties of the worker retry logic, the cache-only model access path,
the unit-ordering utilities and the script's argument handling.

External collaborators (`get_fitted_hmm`, `fnmatch`, `load_metrics`,
raster loading) are passed in as parameters; job-queue machinery that the
repository's sources reference but do not define (`become_worker`,
`Job.requeue`) is modelled from the specification, as marked in the doc
comments.
-/

/-- Outcome of one call to the external fitting routine `get_fitted_hmm`:
it either succeeds, raises `ZeroDivisionError` (the designated transient
numerical failure), or raises an exception of some other type, identified
here by a name. -/
inductive FitOutcome where
  | success
  | zeroDivisionError
  | otherError (name : String)
deriving DecidableEq

/-- Result of running `fit_hmm` on one job: how many times `job.requeue()`
was called, what was printed, and which exception (if any) escaped the
function uncaught. -/
structure FitHmmResult where
  requeueCalls : Nat
  printed : List String
  uncaught : Option String
deriving DecidableEq

/-- Embedding of `fit_hmm` from `hmm_worker.py`: try the fit; on
`ZeroDivisionError` call `job.requeue()` (whose boolean result is the
parameter `requeue_result`) and print the message the boolean selects; an
exception of any other type is not caught and escapes the function. -/
def fit_hmm (outcome : FitOutcome) (requeue_result : Bool) : FitHmmResult :=
  match outcome with
  | FitOutcome.success =>
      { requeueCalls := 0, printed := [], uncaught := none }
  | FitOutcome.zeroDivisionError =>
      if requeue_result then
        { requeueCalls := 1, printed := ["Optimization failed, retrying."],
          uncaught := none }
      else
        { requeueCalls := 1, printed := ["Optimization failed."],
          uncaught := none }
  | FitOutcome.otherError e =>
      { requeueCalls := 0, printed := [], uncaught := some e }

/-- Modelled from the spec: the worker loop installed by `become_worker`
(defined in `hmmsupport`, which is not among the sources) runs the handler
on one leased job; an exception escaping the handler is caught by the loop
and logged as a distinct unexpected failure for that job, so the loop can
move on to the next job. -/
def worker_process_job (outcome : FitOutcome) (requeue_result : Bool) :
    List String :=
  let r := fit_hmm outcome requeue_result
  match r.uncaught with
  | none => r.printed
  | some e => r.printed ++ ["Unexpected failure fitting job: " ++ e]

/-- Modelled from the spec: `become_worker` (from `hmmsupport`, not among
the sources) processes the queued jobs sequentially, producing each job's
log; it never aborts early. -/
def become_worker : List (FitOutcome × Bool) → List (List String)
  | [] => []
  | (o, q) :: rest => worker_process_job o q :: become_worker rest

theorem become_worker_eq_map (jobs : List (FitOutcome × Bool)) :
    become_worker jobs = jobs.map (fun p => worker_process_job p.1 p.2) := by
  induction jobs with
  | nil => rfl
  | cons p rest ih => cases p; simp [become_worker, ih]

/-- C1: `fit_hmm` makes exactly one requeue call when the fit raises
`ZeroDivisionError`, and zero requeue calls when the fit succeeds or
raises any other error type. -/
theorem fit_hmm_requeue_count (o : FitOutcome) (r : Bool) :
    (fit_hmm o r).requeueCalls =
      if o = FitOutcome.zeroDivisionError then 1 else 0 := by
  cases o <;> cases r <;> rfl

/-- C2: after a numerical fit failure, the boolean returned by `requeue`
decides the worker's log line: `true` (accepted) logs the transient
"Optimization failed, retrying." warning and `false` (rejected) logs the
terminal "Optimization failed." warning; in both cases requeue was called
exactly once. -/
theorem fit_hmm_requeue_message (r : Bool) :
    (fit_hmm FitOutcome.zeroDivisionError r).printed =
        [if r then "Optimization failed, retrying."
         else "Optimization failed."] ∧
      (fit_hmm FitOutcome.zeroDivisionError r).requeueCalls = 1 := by
  cases r <;> exact ⟨rfl, rfl⟩

/-- C3: an exception outside the transient numerical class escapes
`fit_hmm` uncaught and without any requeue call, the worker loop logs it
as a distinct unexpected failure, and the failure stays local to that one
job: the loop still produces a log for every job, and every job's log
depends only on that job. -/
theorem worker_other_error_local (jobs : List (FitOutcome × Bool))
    (i : Nat) (o : FitOutcome) (q : Bool) (e : String)
    (hj : jobs[i]? = some (o, q)) (he : o = FitOutcome.otherError e) :
    (become_worker jobs).length = jobs.length ∧
      (∀ (j : Nat) (oj : FitOutcome) (qj : Bool), jobs[j]? = some (oj, qj) →
        (become_worker jobs)[j]? = some (worker_process_job oj qj)) ∧
      (become_worker jobs)[i]? =
        some ["Unexpected failure fitting job: " ++ e] ∧
      (fit_hmm o q).uncaught = some e ∧
      (fit_hmm o q).requeueCalls = 0 := by
  subst he
  refine ⟨?_, ?_, ?_, rfl, rfl⟩
  · rw [become_worker_eq_map]; exact List.length_map _ _
  · intro j oj qj hjq
    rw [become_worker_eq_map, List.getElem?_map, hjq]
    rfl
  · rw [become_worker_eq_map, List.getElem?_map, hj]
    rfl

/-- Concrete run of `worker_other_error_local`: a two-job queue where the
second job raises `ValueError`. -/
theorem worker_other_error_local_witness :
    (become_worker
        [(FitOutcome.success, true),
         (FitOutcome.otherError "ValueError", false)]).length = 2 ∧
      (∀ (j : Nat) (oj : FitOutcome) (qj : Bool),
        [(FitOutcome.success, true),
         (FitOutcome.otherError "ValueError", false)][j]? = some (oj, qj) →
        (become_worker
          [(FitOutcome.success, true),
           (FitOutcome.otherError "ValueError", false)])[j]? =
          some (worker_process_job oj qj)) ∧
      (become_worker
        [(FitOutcome.success, true),
         (FitOutcome.otherError "ValueError", false)])[1]? =
        some ["Unexpected failure fitting job: " ++ "ValueError"] ∧
      (fit_hmm (FitOutcome.otherError "ValueError") false).uncaught =
        some "ValueError" ∧
      (fit_hmm (FitOutcome.otherError "ValueError") false).requeueCalls = 0 :=
  worker_other_error_local
    [(FitOutcome.success, true), (FitOutcome.otherError "ValueError", false)]
    1 (FitOutcome.otherError "ValueError") false "ValueError" rfl rfl

/-- Lifecycle states of a fitting Job, from the spec's JobQueue contract. -/
inductive JobState where
  | pending
  | leased
  | succeeded
  | abandoned
deriving DecidableEq

/-- A queued fitting job: its fit-attempt counter and lifecycle state. -/
structure QJob where
  attempts : Nat
  state : JobState
deriving DecidableEq

/-- Modelled from the spec: `lease` (part of the job queue in
`hmmsupport`, not among the sources) hands a pending job to a worker,
beginning one fit attempt (so the attempt counter advances); a job in any
other state, in particular an abandoned one, is never handed out. -/
def lease (j : QJob) : Option QJob :=
  if j.state = JobState.pending then
    some { attempts := j.attempts + 1, state := JobState.leased }
  else
    none

/-- Modelled from the spec: `Job.requeue` (from `hmmsupport`, not among
the sources) returns the failed job to pending and reports `true`
(accepted) while its attempt count is below the configured maximum
`max_attempts`; otherwise it marks the job abandoned and reports `false`
(rejected). -/
def requeue (max_attempts : Nat) (j : QJob) : QJob × Bool :=
  if j.attempts < max_attempts then
    ({ attempts := j.attempts, state := JobState.pending }, true)
  else
    ({ attempts := j.attempts, state := JobState.abandoned }, false)

/-- Modelled from the spec: drive a job whose fit always raises the
transient numerical failure: repeatedly lease it and requeue it, until it
can no longer be leased (or fuel runs out). Returns the final job record,
the number of accepted requeues (times the job went back to pending), and
the list of every intermediate job record. -/
def run_failing (max_attempts : Nat) : Nat → QJob → QJob × Nat × List QJob
  | 0, j => (j, 0, [])
  | fuel + 1, j =>
    match lease j with
    | none => (j, 0, [])
    | some jl =>
      let p := requeue max_attempts jl
      let rest := run_failing max_attempts fuel p.1
      (rest.1, (if p.2 then 1 else 0) + rest.2.1, jl :: p.1 :: rest.2.2)

theorem run_failing_abandoned (max_attempts fuel a : Nat) :
    run_failing max_attempts fuel { attempts := a, state := JobState.abandoned } =
      ({ attempts := a, state := JobState.abandoned }, 0, []) := by
  cases fuel with
  | zero => rfl
  | succ n => simp [run_failing, lease]

theorem run_failing_from (max_attempts : Nat) :
    ∀ fuel k, k < max_attempts → max_attempts - k ≤ fuel →
      ∃ tr,
        run_failing max_attempts fuel { attempts := k, state := JobState.pending } =
          ({ attempts := max_attempts, state := JobState.abandoned },
            max_attempts - k - 1, tr) ∧
        ∀ j ∈ tr, j.attempts ≤ max_attempts := by
  intro fuel
  induction fuel with
  | zero => intro k hk hf; omega
  | succ n ih =>
    intro k hk hf
    have hl : lease { attempts := k, state := JobState.pending } =
        some { attempts := k + 1, state := JobState.leased } := by
      simp [lease]
    by_cases hlt : k + 1 < max_attempts
    · obtain ⟨tr, htr, hb⟩ := ih (k + 1) hlt (by omega)
      have hr : requeue max_attempts { attempts := k + 1, state := JobState.leased } =
          ({ attempts := k + 1, state := JobState.pending }, true) := by
        simp [requeue, hlt]
      refine ⟨{ attempts := k + 1, state := JobState.leased } ::
        { attempts := k + 1, state := JobState.pending } :: tr, ?_, ?_⟩
      · simp only [run_failing, hl, hr, htr, Prod.mk.injEq]
        refine ⟨by trivial, by simp; omega, by trivial⟩
      · intro j hj
        simp only [List.mem_cons] at hj
        rcases hj with rfl | rfl | h
        · simp; omega
        · simp; omega
        · exact hb j h
    · have hke : k + 1 = max_attempts := by omega
      have hr : requeue max_attempts { attempts := k + 1, state := JobState.leased } =
          ({ attempts := k + 1, state := JobState.abandoned }, false) := by
        simp [requeue, hlt]
      refine ⟨{ attempts := k + 1, state := JobState.leased } ::
        { attempts := k + 1, state := JobState.abandoned } :: [], ?_, ?_⟩
      · simp only [run_failing, hl, hr, run_failing_abandoned, Prod.mk.injEq]
        refine ⟨by rw [hke], by simp; omega, by trivial⟩
      · intro j hj
        simp only [List.mem_cons] at hj
        rcases hj with rfl | rfl | h
        · simp; omega
        · simp; omega
        · simp at h

/-- C5: a fresh job whose fit always raises the transient numerical
failure is requeued (accepted back to pending) exactly
`max_attempts - 1` times, ends marked Abandoned with its attempt counter
equal to the configured maximum, its attempt counter never exceeds that
maximum at any intermediate point, and an abandoned job is never leased
again. -/
theorem failing_job_retry_bound (max_attempts fuel : Nat)
    (h1 : 1 ≤ max_attempts) (h2 : max_attempts ≤ fuel) :
    ∃ tr,
      run_failing max_attempts fuel { attempts := 0, state := JobState.pending } =
        ({ attempts := max_attempts, state := JobState.abandoned },
          max_attempts - 1, tr) ∧
      (∀ j ∈ tr, j.attempts ≤ max_attempts) ∧
      lease { attempts := max_attempts, state := JobState.abandoned } = none := by
  obtain ⟨tr, htr, hb⟩ := run_failing_from max_attempts fuel 0 h1 (by omega)
  refine ⟨tr, by simpa using htr, hb, by simp [lease]⟩

/-- Concrete run of `failing_job_retry_bound` with `max_attempts = 3`:
two accepted requeues, then abandonment with the counter at 3. -/
theorem failing_job_retry_bound_witness :
    ∃ tr,
      run_failing 3 3 { attempts := 0, state := JobState.pending } =
        ({ attempts := 3, state := JobState.abandoned }, 2, tr) ∧
      (∀ j ∈ tr, j.attempts ≤ 3) ∧
      lease { attempts := 3, state := JobState.abandoned } = none :=
  failing_job_retry_bound 3 3 (by decide) (by decide)

/-- A consumer-side model handle as used by `GenericFigure.py`: `hmm`
holds the cached fitted artifact when one was found (the Python object's
`_hmm` attribute), and `mean_entropy` / `baseline_entropy` are the derived
statistics filled in by `compute_entropy`. Artifacts, rasters and entropy
values are represented by natural numbers. -/
structure PModel where
  hmm : Option Nat
  mean_entropy : Option Nat
  baseline_entropy : Option Nat
deriving DecidableEq

/-- Modelled from the spec: the `Model` constructor (in `hmmsupport`, not
among the sources). With `recompute_ok = false` it is the cache-only
access path (`get_or_none`): it looks the key up in the ModelCache and
leaves `_hmm` empty on a miss; with `recompute_ok = true` it would invoke
the fitter on a miss. Returns the handle together with the number of
fitter invocations made. -/
def modelConstruct (cached : Option Nat) (recompute_ok : Bool)
    (fitter : Unit → Nat) : PModel × Nat :=
  match cached with
  | some a =>
      ({ hmm := some a, mean_entropy := none, baseline_entropy := none }, 0)
  | none =>
      if recompute_ok then
        ({ hmm := some (fitter ()), mean_entropy := none,
           baseline_entropy := none }, 1)
      else
        ({ hmm := none, mean_entropy := none, baseline_entropy := none }, 0)

/-- Modelled from the spec: `Model.compute_entropy` (in `hmmsupport`, not
among the sources) fills the derived entropy statistics from the fitted
artifact and the raster. -/
def compute_entropy (m : PModel) (raster : Nat) (ent : Nat → Nat → Nat)
    (base : Nat → Nat → Nat) : PModel :=
  match m.hmm with
  | some a =>
      { m with mean_entropy := some (ent a raster),
               baseline_entropy := some (base a raster) }
  | none => m

/-- Embedding of `process_model` from `GenericFigure.py`: construct a
model handle with `recompute_ok=False`; if its `_hmm` is `None` print the
"No model" message, otherwise compute its entropy from the raster; in
either case return the model object (as a Python function it returns the
object itself, never `None`). Also returns what was printed and how many
fitter invocations were made. -/
def process_model (exp : String) (n : Nat) (cached : Option Nat)
    (raster : Nat) (ent : Nat → Nat → Nat) (base : Nat → Nat → Nat)
    (fitter : Unit → Nat) : Option PModel × List String × Nat :=
  let p := modelConstruct cached false fitter
  match p.1.hmm with
  | none =>
      (some p.1,
        ["No model for " ++ exp ++ " with " ++ toString n ++ " states!"],
        p.2)
  | some _ => (some (compute_entropy p.1 raster ent base), [], p.2)

/-- Embedding of `good_models` from `GenericFigure.py`: keep the entries
of the per-experiment model list that are not `None`. -/
def good_models (ms : List (Option PModel)) : List (Option PModel) :=
  ms.filter (fun m => m.isSome)

/-- C6: the cache-only access path (`recompute_ok=False`) never invokes
the fitter; the handle's `_hmm` is exactly the cache lookup result; on a
miss the "No model" message is printed and nothing else; and the derived
entropy is computed if and only if the cached artifact is present. -/
theorem process_model_cache_only (exp : String) (n : Nat)
    (cached : Option Nat) (raster : Nat) (ent base : Nat → Nat → Nat)
    (fitter : Unit → Nat) :
    (process_model exp n cached raster ent base fitter).2.2 = 0 ∧
      (∃ m, (process_model exp n cached raster ent base fitter).1 = some m ∧
        m.hmm = cached ∧ (m.mean_entropy.isSome ↔ cached.isSome)) ∧
      (cached = none →
        (process_model exp n cached raster ent base fitter).2.1 =
          ["No model for " ++ exp ++ " with " ++ toString n ++ " states!"]) ∧
      (cached.isSome →
        (process_model exp n cached raster ent base fitter).2.1 = []) := by
  cases cached with
  | none => simp [process_model, modelConstruct, compute_entropy]
  | some a => simp [process_model, modelConstruct, compute_entropy]

/-- Concrete run of `process_model_cache_only` at a cache miss. -/
theorem process_model_cache_only_witness :
    (process_model "exp1" 10 none 0 (fun a b => a + b) (fun a b => a * b)
        (fun _ => 7)).2.2 = 0 ∧
      (∃ m, (process_model "exp1" 10 none 0 (fun a b => a + b)
          (fun a b => a * b) (fun _ => 7)).1 = some m ∧
        m.hmm = none ∧ (m.mean_entropy.isSome ↔ (none : Option Nat).isSome)) ∧
      ((none : Option Nat) = none →
        (process_model "exp1" 10 none 0 (fun a b => a + b) (fun a b => a * b)
            (fun _ => 7)).2.1 =
          ["No model for " ++ "exp1" ++ " with " ++ toString 10 ++ " states!"]) ∧
      ((none : Option Nat).isSome →
        (process_model "exp1" 10 none 0 (fun a b => a + b) (fun a b => a * b)
            (fun _ => 7)).2.1 = []) :=
  process_model_cache_only "exp1" 10 none 0 (fun a b => a + b)
    (fun a b => a * b) (fun _ => 7)

/-- C4, evaluated at the failing input: for an experiment whose cache has
no artifact for `n = 10` states, `process_model` prints the "No model"
message and returns a handle with `_hmm = None` and no computed entropy,
yet `good_models` keeps that handle: the missing model is NOT excluded
from the per-experiment model set used for entropy aggregation, because
the filter `m is not None` tests the handle object, which is never
`None`, rather than its `_hmm` attribute. -/
theorem good_models_keeps_missing :
    (process_model "exp1" 10 none 0 (fun a b => a + b) (fun a b => a * b)
        (fun _ => 7)).1 =
      some { hmm := none, mean_entropy := none, baseline_entropy := none } ∧
    good_models [(process_model "exp1" 10 none 0 (fun a b => a + b)
        (fun a b => a * b) (fun _ => 7)).1] =
      [some { hmm := none, mean_entropy := none, baseline_entropy := none }] ∧
    (process_model "exp1" 10 none 0 (fun a b => a + b) (fun a b => a * b)
        (fun _ => 7)).2.1 =
      ["No model for exp1 with 10 states!"] := by
  refine ⟨rfl, rfl, rfl⟩

/-- numpy fancy-index assignment `inv[idces] = vals` over a list of
(index, value) pairs, folded left so a later duplicate index overwrites an
earlier one; a negative index counts from the end of the array; an
out-of-range index raises `IndexError`, modelled as `none`. -/
def scatter_assign : List Int → List (Int × Int) → Option (List Int)
  | inv, [] => some inv
  | inv, (idx, v) :: rest =>
    let n : Int := inv.length
    let i := if idx < 0 then idx + n else idx
    if 0 ≤ i ∧ i < n then scatter_assign (inv.set i.toNat v) rest else none

theorem scatter_assign_cons_nonneg (inv : List Int) (idx v : Int)
    (rest : List (Int × Int)) (h0 : 0 ≤ idx)
    (h1 : idx < (inv.length : Int)) :
    scatter_assign inv ((idx, v) :: rest) =
      scatter_assign (inv.set idx.toNat v) rest := by
  simp only [scatter_assign]
  rw [if_neg (not_lt.mpr h0), if_pos ⟨h0, h1⟩]

theorem scatter_assign_untouched (ps : List (Int × Int)) :
    ∀ (inv out : List Int) (k : Nat),
      (∀ p ∈ ps, 0 ≤ p.1 ∧ p.1 < (inv.length : Int)) →
      (∀ p ∈ ps, p.1.toNat ≠ k) →
      scatter_assign inv ps = some out → out[k]? = inv[k]? := by
  induction ps with
  | nil =>
    intro inv out k _ _ h
    cases h
    rfl
  | cons p rest ih =>
    intro inv out k hb hk h
    obtain ⟨idx, v⟩ := p
    obtain ⟨h0, h1⟩ := hb _ (List.mem_cons_self _ _)
    rw [scatter_assign_cons_nonneg inv idx v rest h0 h1] at h
    have hrec := ih (inv.set idx.toNat v) out k
      (by
        intro q hq
        simpa [List.length_set] using hb q (List.mem_cons_of_mem _ hq))
      (fun q hq => hk q (List.mem_cons_of_mem _ hq)) h
    rw [hrec, List.getElem?_set_ne]
    exact hk (idx, v) (List.mem_cons_self _ _)

theorem scatter_assign_get (ps : List (Int × Int)) :
    ∀ (inv out : List Int),
      (∀ p ∈ ps, 0 ≤ p.1 ∧ p.1 < (inv.length : Int)) →
      (ps.map Prod.fst).Nodup →
      scatter_assign inv ps = some out →
      ∀ i, (hi : i < ps.length) →
        out[(ps[i]).1.toNat]? = some (ps[i]).2 := by
  induction ps with
  | nil =>
    intro inv out _ _ _ i hi
    simp at hi
  | cons p rest ih =>
    intro inv out hb hnd h i hi
    obtain ⟨idx, v⟩ := p
    obtain ⟨h0, h1⟩ := hb _ (List.mem_cons_self _ _)
    rw [scatter_assign_cons_nonneg inv idx v rest h0 h1] at h
    simp only [List.map_cons] at hnd
    obtain ⟨hhead, htail⟩ := List.nodup_cons.mp hnd
    cases i with
    | zero =>
      have huntouched := scatter_assign_untouched rest
        (inv.set idx.toNat v) out idx.toNat
        (by
          intro q hq
          simpa [List.length_set] using hb q (List.mem_cons_of_mem _ hq))
        (by
          intro q hq
          have hq0 : 0 ≤ q.1 := (hb q (List.mem_cons_of_mem _ hq)).1
          have hne : q.1 ≠ idx := by
            intro he
            exact hhead (he ▸ List.mem_map_of_mem Prod.fst hq)
          omega)
        h
      simp only [List.getElem_cons_zero]
      rw [huntouched, List.getElem?_set_eq_of_lt]
      omega
    | succ i' =>
      have := ih (inv.set idx.toNat v) out
        (by
          intro q hq
          simpa [List.length_set] using hb q (List.mem_cons_of_mem _ hq))
        htail h i' (by simpa using Nat.lt_of_succ_lt_succ hi)
      simpa using this

theorem scatter_assign_some (ps : List (Int × Int)) :
    ∀ inv : List Int,
      (∀ p ∈ ps, 0 ≤ p.1 ∧ p.1 < (inv.length : Int)) →
      ∃ out, scatter_assign inv ps = some out ∧ out.length = inv.length := by
  induction ps with
  | nil => intro inv _; exact ⟨inv, rfl, rfl⟩
  | cons p rest ih =>
    intro inv hb
    obtain ⟨idx, v⟩ := p
    obtain ⟨h0, h1⟩ := hb _ (List.mem_cons_self _ _)
    obtain ⟨out, hout, hlen⟩ := ih (inv.set idx.toNat v)
      (by
        intro q hq
        simpa [List.length_set] using hb q (List.mem_cons_of_mem _ hq))
    refine ⟨out, ?_, by rw [hlen, List.length_set]⟩
    rw [scatter_assign_cons_nonneg inv idx v rest h0 h1, hout]

/-- Embedding of `load_unit_order` from `GenericFigure.py`. `srm` is the
metrics lookup result (the flattened `mean_rate_ordering` array, `none`
when `load_metrics` found nothing) and `N` is the raster's unit count.
Computes `unit_order` either from the metrics (shifted from 1-based to
0-based) or, after printing the warning, as `np.arange(N)`; then builds
`inverse_unit_order` by the numpy fancy assignment
`inverse_unit_order[unit_order] = np.arange(N)` over an array of zeros.
Returns `(unit_order, inverse_unit_order, warned)`, or `none` when the
fancy assignment raises; `warned` records whether the metrics-not-found
warning was printed. -/
def load_unit_order (srm : Option (List Int)) (N : Nat) :
    Option (List Int × List Int × Bool) :=
  let p : List Int × Bool :=
    match srm with
    | some l => (l.map (fun x => x - 1), false)
    | none => ((List.range N).map (Nat.cast : Nat → Int), true)
  let zeros := List.replicate p.1.length (0 : Int)
  let vals := (List.range N).map (Nat.cast : Nat → Int)
  if p.1.length = N then
    match scatter_assign zeros (p.1.zip vals) with
    | some inv => some (p.1, inv, p.2)
    | none => none
  else
    none

/-- C7: when the metrics provide a `mean_rate_ordering` (of the raster's
N units, 1-based), `load_unit_order` returns it shifted to 0-based with
no warning printed; when the metrics are absent it prints the warning and
falls back to the identity ordering `np.arange(N)`. -/
theorem load_unit_order_source (srm : Option (List Int)) (N : Nat) :
    (∀ l, srm = some l → l.length = N → (∀ x ∈ l, 1 ≤ x ∧ x ≤ (N : Int)) →
      ∃ inv, load_unit_order srm N =
        some (l.map (fun x => x - 1), inv, false)) ∧
    (srm = none →
      ∃ inv, load_unit_order srm N =
        some ((List.range N).map (Nat.cast : Nat → Int), inv, true)) := by
  constructor
  · intro l hsrm hlen hbound
    subst hsrm
    have hmaplen : (l.map (fun x => x - 1)).length = N := by
      simpa using hlen
    obtain ⟨out, hout, _⟩ := scatter_assign_some
      ((l.map (fun x => x - 1)).zip ((List.range N).map (Nat.cast : Nat → Int)))
      (List.replicate N (0 : Int))
      (by
        intro q hq
        have hq1 := (List.of_mem_zip hq).1
        obtain ⟨x, hx, hxq⟩ := List.mem_map.mp hq1
        obtain ⟨hx1, hx2⟩ := hbound x hx
        rw [List.length_replicate]
        omega)
    exact ⟨out, by simp [load_unit_order, hmaplen, hout]⟩
  · intro hsrm
    subst hsrm
    have hmaplen : ((List.range N).map (Nat.cast : Nat → Int)).length = N := by
      simp
    obtain ⟨out, hout, _⟩ := scatter_assign_some
      (((List.range N).map (Nat.cast : Nat → Int)).zip ((List.range N).map (Nat.cast : Nat → Int)))
      (List.replicate N (0 : Int))
      (by
        intro q hq
        have hq1 := (List.of_mem_zip hq).1
        obtain ⟨x, hx, hxq⟩ := List.mem_map.mp hq1
        have hxN := List.mem_range.mp hx
        rw [List.length_replicate, ← hxq]
        omega)
    exact ⟨out, by simp [load_unit_order, hmaplen, hout]⟩

/-- Concrete run of `load_unit_order_source`: metrics `[2, 3, 1]` over a
3-unit raster give the 0-based order `[1, 2, 0]` with no warning, and
absent metrics give the identity order and a warning. -/
theorem load_unit_order_source_witness :
    (∃ inv, load_unit_order (some [2, 3, 1]) 3 =
      some ([(2 : Int), 3, 1].map (fun x => x - 1), inv, false)) ∧
    (∃ inv, load_unit_order none 3 =
      some ((List.range 3).map (Nat.cast : Nat → Int), inv, true)) :=
  ⟨(load_unit_order_source (some [2, 3, 1]) 3).1 [2, 3, 1] rfl (by decide)
      (by decide),
    (load_unit_order_source none 3).2 rfl⟩

theorem scatter_inverse_of_perm (order inv : List Int) (N : Nat)
    (hperm : order.Perm ((List.range N).map (Nat.cast : Nat → Int)))
    (hsc : scatter_assign (List.replicate order.length (0 : Int))
      (order.zip ((List.range N).map (Nat.cast : Nat → Int))) = some inv) :
    ∀ i, i < N →
      ∃ oi, order[i]? = some oi ∧ inv[oi.toNat]? = some (i : Int) := by
  have hlen : order.length = N := by simpa using hperm.length_eq
  have hvlen : ((List.range N).map (Nat.cast : Nat → Int)).length = N := by simp
  have hplen : (order.zip ((List.range N).map (Nat.cast : Nat → Int))).length
      = N := by
    rw [List.length_zip, hlen, hvlen, Nat.min_self]
  have hfst : (order.zip ((List.range N).map (Nat.cast : Nat → Int))).map
      Prod.fst = order :=
    List.map_fst_zip _ _ (by rw [hlen, hvlen])
  have hmem : ∀ x ∈ order, 0 ≤ x ∧ x < (N : Int) := by
    intro x hx
    have := hperm.mem_iff.mp hx
    obtain ⟨j, hj, hjx⟩ := List.mem_map.mp this
    have := List.mem_range.mp hj
    omega
  have hbound : ∀ p ∈ (order.zip ((List.range N).map (Nat.cast : Nat → Int))),
      0 ≤ p.1 ∧ p.1 < ((List.replicate order.length (0 : Int)).length : Int) := by
    intro p hp
    have := hmem p.1 (List.of_mem_zip hp).1
    rw [List.length_replicate, hlen]
    exact this
  have hnd : ((order.zip ((List.range N).map (Nat.cast : Nat → Int))).map
      Prod.fst).Nodup := by
    rw [hfst]
    exact hperm.nodup_iff.mpr
      ((List.nodup_range N).map Nat.cast_injective)
  intro i hi
  have hio : i < order.length := by rw [hlen]; exact hi
  have hiv : i < ((List.range N).map (Nat.cast : Nat → Int)).length := by
    rw [hvlen]; exact hi
  have hi' : i < (order.zip ((List.range N).map (Nat.cast : Nat → Int))).length := by
    rw [hplen]; exact hi
  have hget := scatter_assign_get _ _ _ hbound hnd hsc i hi'
  have hzi : (order.zip ((List.range N).map (Nat.cast : Nat → Int)))[i] =
      (order[i], ((List.range N).map (Nat.cast : Nat → Int))[i]) :=
    List.getElem_zip
  have hvi : ((List.range N).map (Nat.cast : Nat → Int))[i] = (i : Int) := by
    simp
  refine ⟨order[i], ?_, ?_⟩
  · exact List.getElem?_eq_getElem hio
  · rw [hzi] at hget
    simpa [hvi] using hget

/-- C8: whenever the unit order returned by `load_unit_order` is a
permutation of `0..N-1`, the second returned array is its inverse
permutation: `inverse_unit_order[unit_order[i]] = i` for every `i < N`. -/
theorem load_unit_order_inverse (srm : Option (List Int)) (N : Nat)
    (order inv : List Int) (warned : Bool)
    (hres : load_unit_order srm N = some (order, inv, warned))
    (hperm : order.Perm ((List.range N).map (Nat.cast : Nat → Int)))
    (i : Nat) (hi : i < N) :
    ∃ oi, order[i]? = some oi ∧ inv[oi.toNat]? = some (i : Int) := by
  have hlen : order.length = N := by simpa using hperm.length_eq
  cases srm with
  | some l =>
    simp only [load_unit_order] at hres
    split at hres
    case isTrue hT =>
      split at hres
      case h_1 inv' heq =>
        obtain ⟨ho, hinv, _⟩ :
            l.map (fun x => x - 1) = order ∧ inv' = inv ∧ false = warned := by
          simpa using hres
        subst ho
        subst hinv
        exact scatter_inverse_of_perm _ _ N hperm heq i hi
      case h_2 heq => simp at hres
    case isFalse hF => simp at hres
  | none =>
    simp only [load_unit_order] at hres
    split at hres
    case isTrue hT =>
      split at hres
      case h_1 inv' heq =>
        obtain ⟨ho, hinv, _⟩ :
            (List.range N).map (Nat.cast : Nat → Int) = order ∧
              inv' = inv ∧ true = warned := by
          simpa using hres
        subst ho
        subst hinv
        exact scatter_inverse_of_perm _ _ N hperm heq i hi
      case h_2 heq => simp at hres
    case isFalse hF => simp at hres

/-- Concrete run of `load_unit_order_inverse`: metrics `[2, 3, 1]` over 3
units give `unit_order = [1, 2, 0]` and `inverse_unit_order = [2, 0, 1]`,
and indeed `inverse_unit_order[unit_order[0]] = 0`. -/
theorem load_unit_order_inverse_witness :
    ∃ oi, ([(1 : Int), 2, 0])[0]? = some oi ∧
      ([(2 : Int), 0, 1])[oi.toNat]? = some ((0 : Nat) : Int) :=
  load_unit_order_inverse (some [2, 3, 1]) 3 [1, 2, 0] [2, 0, 1] false
    (by decide) (by decide) 0 (by decide)

/-- Python `str.split(",")` over a list of characters: split at every
comma; the empty string yields one empty field. -/
def splitOnComma : List Char → List (List Char)
  | [] => [[]]
  | c :: rest =>
    let r := splitOnComma rest
    if c = ',' then
      [] :: r
    else
      match r with
      | [] => [[c]]
      | f :: fs => (c :: f) :: fs

/-- Whitespace characters stripped from the ends by Python `int(str)`. -/
def isPySpace (c : Char) : Bool :=
  c == ' ' || c == '\t' || c == '\n' || c == '\r'

/-- Numeric value of a decimal digit character. -/
def digitVal (c : Char) : Nat :=
  c.toNat - '0'.toNat

/-- Continuation of parsing the digit run of a Python integer literal:
single underscores may separate consecutive digits. -/
def parseDigitsGo : List Char → Nat → Option Nat
  | [], acc => some acc
  | c :: rest, acc =>
    if c.isDigit then
      parseDigitsGo rest (10 * acc + digitVal c)
    else if c = '_' then
      match rest with
      | c2 :: rest2 =>
        if c2.isDigit then parseDigitsGo rest2 (10 * acc + digitVal c2)
        else none
      | [] => none
    else none

/-- The digit run of a Python integer literal: a nonempty run of decimal
digits in which single underscores may separate consecutive digits. -/
def parseDigits : List Char → Option Nat
  | [] => none
  | c :: rest => if c.isDigit then parseDigitsGo rest (digitVal c) else none

/-- Python `int(str)` on a decimal string: strip surrounding whitespace,
accept an optional sign followed by a digit run, reject anything else. -/
def pyInt (cs : List Char) : Option Int :=
  let cs1 := cs.dropWhile isPySpace
  let cs2 := (cs1.reverse.dropWhile isPySpace).reverse
  match cs2 with
  | '-' :: rest => (parseDigits rest).map (fun n => -(n : Int))
  | '+' :: rest => (parseDigits rest).map (fun n => (n : Int))
  | _ => (parseDigits cs2).map (fun n => (n : Int))

/-- Embedding of `three_ints` from `GenericFigure.py`: split the argument
on commas into exactly three fields (any other count makes the tuple
unpacking raise `ValueError`, modelled as `none`), parse each field as a
Python integer (a bad field makes `int` raise), and return the three
parsed values each decremented by one, in order. -/
def three_ints (arg : List Char) : Option (List Int) :=
  match splitOnComma arg with
  | [a, b, c] =>
    match pyInt a, pyInt b, pyInt c with
    | some x, some y, some z => some [x - 1, y - 1, z - 1]
    | _, _, _ => none
  | _ => none

/-- C9: `three_ints` succeeds iff its argument splits on commas into
exactly three fields each parseable as a Python integer, in which case it
returns the three parsed values each decremented by one, in order; any
other input raises (yields `none`). -/
theorem three_ints_spec (arg : List Char) :
    ((three_ints arg).isSome ↔
      ((splitOnComma arg).length = 3 ∧
        ∀ f ∈ splitOnComma arg, (pyInt f).isSome)) ∧
    (∀ a b c x y z, splitOnComma arg = [a, b, c] →
      pyInt a = some x → pyInt b = some y → pyInt c = some z →
      three_ints arg = some [x - 1, y - 1, z - 1]) := by
  rcases hs : splitOnComma arg with - | ⟨a, - | ⟨b, - | ⟨c, - | ⟨d, t⟩⟩⟩⟩
  · simp [three_ints, hs]
  · simp [three_ints, hs]
  · simp [three_ints, hs]
  · constructor
    · rcases ha : pyInt a with - | x <;> rcases hb : pyInt b with - | y <;>
        rcases hc : pyInt c with - | z <;>
        simp [three_ints, hs, ha, hb, hc]
    · intro a' b' c' x y z heq ha hb hc
      obtain ⟨rfl, rfl, rfl⟩ : a = a' ∧ b = b' ∧ c = c' := by
        simpa using heq
      simp [three_ints, hs, ha, hb, hc]
  · constructor
    · simp [three_ints, hs]
    · intro a' b' c' x y z heq
      simp at heq

/-- Concrete run of `three_ints_spec`: the argument "4,10,25" parses to
the zero-based states `[3, 9, 24]`. -/
theorem three_ints_spec_witness :
    three_ints ("4,10,25".toList) = some [3, 9, 24] :=
  (three_ints_spec ("4,10,25".toList)).2 "4".toList "10".toList "25".toList
    4 10 25 (by decide) (by decide) (by decide) (by decide)

/-- Outcome of the prologue of the `GenericFigure.py` script: either an
early `sys.exit` with a status code and the line printed to stderr, or
proceeding to the loading stage with one raster loaded per experiment. -/
inductive ScriptOutcome where
  | exited (code : Nat) (stderrLine : String)
  | ran (rasters : List (String × Nat))
deriving DecidableEq

/-- Embedding of the experiment-selection prologue of `GenericFigure.py`:
filter the source's experiments by the experiments pattern, then by the
base pattern; if no base experiment matches, print an error naming the
base pattern to stderr and exit with status 1 before any raster or model
is loaded; otherwise proceed and load a raster per selected experiment.
`fnmatch` and `get_raster` are external collaborators passed as
functions. -/
def script_main (all_experiments : List String)
    (experiments_pat base_pat : String)
    (fnmatch : String → String → Bool) (get_raster : String → Nat) :
    ScriptOutcome :=
  let experiments := all_experiments.filter (fun e => fnmatch e experiments_pat)
  let base_exps := experiments.filter (fun e => fnmatch e base_pat)
  if base_exps.isEmpty then
    ScriptOutcome.exited 1
      ("Invalid experiment " ++ base_pat ++ " doesn't match any of " ++
        toString experiments)
  else
    ScriptOutcome.ran (experiments.map (fun e => (e, get_raster e)))

/-- C10: when the base-experiment pattern matches none of the selected
experiments, the script prints an error naming the pattern to stderr and
exits with status 1, and it does not reach the stage that loads rasters
or models. -/
theorem script_exits_on_no_base (all_experiments : List String)
    (experiments_pat base_pat : String)
    (fnmatch : String → String → Bool) (get_raster : String → Nat)
    (h : ∀ e ∈ all_experiments.filter (fun e => fnmatch e experiments_pat),
      fnmatch e base_pat = false) :
    script_main all_experiments experiments_pat base_pat fnmatch get_raster =
      ScriptOutcome.exited 1
        ("Invalid experiment " ++ base_pat ++ " doesn't match any of " ++
          toString (all_experiments.filter
            (fun e => fnmatch e experiments_pat))) ∧
    ∀ rs, script_main all_experiments experiments_pat base_pat fnmatch
        get_raster ≠ ScriptOutcome.ran rs := by
  have hempty : (all_experiments.filter
      (fun e => fnmatch e experiments_pat)).filter
      (fun e => fnmatch e base_pat) = [] := by
    rw [List.filter_eq_nil_iff]
    intro e he
    simp [h e he]
  constructor
  · simp [script_main, hempty]
  · intro rs
    simp [script_main, hempty]

/-- Concrete run of `script_exits_on_no_base`: with experiments `org1`
and `org2` selected by `*`, the base pattern `chip*` matches nothing, so
the script exits with status 1. -/
theorem script_exits_on_no_base_witness :
    script_main ["org1", "org2"] "*" "chip*"
        (fun e p => p == "*" || e == p) (fun _ => 0) =
      ScriptOutcome.exited 1
        ("Invalid experiment " ++ "chip*" ++ " doesn't match any of " ++
          toString (["org1", "org2"].filter
            (fun e => (fun e p => p == "*" || e == p) e "*"))) ∧
    ∀ rs, script_main ["org1", "org2"] "*" "chip*"
        (fun e p => p == "*" || e == p) (fun _ => 0) ≠
      ScriptOutcome.ran rs :=
  script_exits_on_no_base ["org1", "org2"] "*" "chip*"
    (fun e p => p == "*" || e == p) (fun _ => 0) (by decide)
